import Mathlib

/-!
Verification development for the nuclei template-execution engine.

Each Go function relevant to the checked properties is shallowly embedded
as an executable Lean definition, translated from the repository source:

* `v2/pkg/operators/matchers/match.go` — the matcher functions
  (`MatchStatusCode`, `MatchSize`, `MatchWords`, `MatchDSL`).
* `v2/pkg/requests/bulk-http-request.go` — `baseURLWithTemplatePrefs`,
  `GetRequestCount`, `Total`.
* `v2/pkg/protocols/http/build_request.go` — `baseURLWithTemplatePrefs`
  (the protocols/http variant) and the sequential `ExecuteWithResults` loop.
* `v2/pkg/executor/executer_http.go` — `makeCheckRedirectFunc`.
* the scan engine core (`executeModelWithInput`) — resume-context consult.
* `v2/pkg/templates/compile.go` — `Parse` with its template cache.

Go machine integers that are used only as non-negative lengths/indices are
modelled as `Nat`; `int` values that the code compares against negatives
are modelled as `Int`.  Go strings are Lean `String`s (lists of characters);
the ASCII fragment of `strings.ToLower` / `unicode.IsSpace` is used, which
covers every concrete value appearing in templates and in this development.
-/

/-! ### Basic string helpers (models of Go `strings` functions) -/

/-- Model of `strings.ToLower` (ASCII fragment): lowercases every character. -/
def strToLower (s : String) : String := ⟨s.data.map Char.toLower⟩

/-- Substring test on character lists: does `pat` occur inside `hay`?
Models Go `strings.Contains(hay, pat)` (note the empty pattern occurs
in every string). -/
def containsSub (hay pat : List Char) : Bool :=
  pat.isPrefixOf hay ||
    match hay with
    | [] => false
    | _ :: t => containsSub t pat

/-- Model of `strings.Contains(corpus, word)`. -/
def strContains (corpus word : String) : Bool :=
  containsSub corpus.data word.data

/-- Model of `utils.IsBlank`, i.e. `strings.TrimSpace(s) == ""`:
true exactly when every character is whitespace. -/
def isBlank (s : String) : Bool := s.data.all Char.isWhitespace

/-- Model of `strings.EqualFold` (ASCII fragment): equality after
lowercasing both sides. -/
def equalFold (a b : String) : Bool := strToLower a == strToLower b

/-! ### Matchers (`v2/pkg/operators/matchers/match.go`) -/

/-- The matcher condition (`matchers.ConditionType`): `and` / `or`. -/
inductive ConditionType where
  | andCond : ConditionType
  | orCond : ConditionType
deriving DecidableEq, Repr

/-- Function `Matcher.MatchStatusCode` from `match.go`: iterate over the accepted
status codes, return true on the first equal one, false otherwise. -/
def matchStatusCode (status : List Int) (statusCode : Int) : Bool :=
  match status with
  | [] => false
  | s :: rest => if statusCode != s then matchStatusCode rest statusCode else true

/-- Function `Matcher.MatchSize` from `match.go`: iterate over the accepted sizes,
return true on the first equal one, false otherwise. -/
def matchSize (size : List Int) (length : Int) : Bool :=
  match size with
  | [] => false
  | s :: rest => if length != s then matchSize rest length else true

/-- Modelled from the spec: `expressions.Evaluate(word, dynamicValues)`
(package `protocols/common/expressions`, not under `src/`).  The spec's
matcher description (§4.5) says a `word` matcher "matches by substring"
with no expression step, so evaluation of a plain word is the word
itself; a word with no `{{...}}` markers is returned unchanged and no
error is produced. -/
def expressionsEvaluate (word : String) : String := word

/-- The loop body of `Matcher.MatchWords` from `match.go`, in the state the
loop carries: the (already lowercased when case-insensitive) corpus, the
accumulated `matchedWords`, and the remaining words.  An empty remainder
corresponds to having fallen through the loop (`return false, []`); the
`rest.isEmpty` test mirrors the source's `len(matcher.Words)-1 == i`. -/
def matchWordsGo (cond : ConditionType) (corpus : String) (acc : List String) :
    List String → Bool × List String
  | [] => (false, [])
  | word :: rest =>
    let w := expressionsEvaluate word
    if !(strContains corpus w) then
      match cond with
      | .andCond => (false, [])
      | .orCond => matchWordsGo cond corpus acc rest
    else
      match cond with
      | .orCond => (true, [w])
      | .andCond =>
        if rest.isEmpty then (true, acc ++ [w])
        else matchWordsGo cond corpus (acc ++ [w]) rest

/-- Function `Matcher.MatchWords` from `match.go`: when `CaseInsensitive` the corpus
is lowercased, then the word loop runs. -/
def matchWords (caseInsensitive : Bool) (cond : ConditionType)
    (words : List String) (corpus : String) : Bool × List String :=
  matchWordsGo cond (if caseInsensitive then strToLower corpus else corpus) [] words

/-- Modelled from the spec: the matcher compile step (`CompileMatchers`,
not under `src/`) prepares `word` matchers; per §4.5 "when
`case-insensitive`, both sides are lowercased before compare", so the
word values are lowercased at compile time. -/
def compileWordsCaseInsensitive (caseInsensitive : Bool) (words : List String) :
    List String :=
  if caseInsensitive then words.map strToLower else words

/-- The full word-matching pipeline: compile-time word preparation followed
by `MatchWords`. -/
def matchWordsCompiled (caseInsensitive : Bool) (cond : ConditionType)
    (words : List String) (corpus : String) : Bool × List String :=
  matchWords caseInsensitive cond (compileWordsCaseInsensitive caseInsensitive words) corpus

/-- Outcome of evaluating one compiled DSL expression on an event map:
`expression.Evaluate(data)` returns an error, a non-boolean value, or a
boolean. -/
inductive DslResult where
  | evalError : DslResult
  | nonBool : DslResult
  | boolean : Bool → DslResult
deriving DecidableEq, Repr

/-- Function `Matcher.MatchDSL` from `match.go`, over the list of per-expression
evaluation outcomes on the given data (the loop consumes
`expression.Evaluate(data)` results in order).  An evaluation error hits
`continue` directly; a non-boolean or false result takes the
mismatch branch (false for AND, continue for OR); a true boolean returns
true for OR, and for AND returns true only at the last index
(`rest.isEmpty` mirrors `len(matcher.dslCompiled)-1 == i`). -/
def matchDSL (cond : ConditionType) : List DslResult → Bool
  | [] => false
  | r :: rest =>
    match r with
    | .evalError => matchDSL cond rest
    | .nonBool =>
      match cond with
      | .andCond => false
      | .orCond => matchDSL cond rest
    | .boolean b =>
      if !b then
        match cond with
        | .andCond => false
        | .orCond => matchDSL cond rest
      else
        match cond with
        | .orCond => true
        | .andCond => if rest.isEmpty then true else matchDSL cond rest

/-- The DSL matcher as the spec's words describe it (for comparison with
`matchDSL`): an expression whose evaluation fails is *treated as not
matched*, i.e. it takes the same branch as a non-boolean result. -/
def matchDSLErrorsAsUnmatched (cond : ConditionType) : List DslResult → Bool
  | [] => false
  | r :: rest =>
    match r with
    | .evalError =>
      match cond with
      | .andCond => false
      | .orCond => matchDSLErrorsAsUnmatched cond rest
    | .nonBool =>
      match cond with
      | .andCond => false
      | .orCond => matchDSLErrorsAsUnmatched cond rest
    | .boolean b =>
      if !b then
        match cond with
        | .andCond => false
        | .orCond => matchDSLErrorsAsUnmatched cond rest
      else
        match cond with
        | .orCond => true
        | .andCond => if rest.isEmpty then true else matchDSLErrorsAsUnmatched cond rest

/-! ### BaseURL rendering (`bulk-http-request.go` / `build_request.go`) -/

/-- A parsed target URL, modelling the `net/url.URL` fields the two
`baseURLWithTemplatePrefs` functions touch (`Host`, `Path`, and the
scheme used by `String()`); URLs without user info, query or fragment. -/
structure GoURL where
  scheme : String
  host : String
  path : String
deriving DecidableEq, Repr

/-- Model of `url.URL.String()` for URLs without opaque part, user info,
query or fragment: the scheme followed by a colon when present; `//` only
when the URL has an authority to show (`u.Host != "" || u.Path != "" ||
u.User != nil`, guarded by `u.Scheme != "" || u.Host != "" || u.User !=
nil`) — in particular a URL whose host and path are both empty renders as
`scheme:` with no `//`; then the host, a `/` inserted before a rootless
path when a host is present, and the path. -/
def urlString (u : GoURL) : String :=
  (if u.scheme != "" then u.scheme ++ ":" else "") ++
  (if (u.scheme != "" || u.host != "") && (u.host != "" || u.path != "") then "//"
   else "") ++
  u.host ++
  (if u.path != "" && !(u.path.data.headD ' ' == '/') && u.host != "" then "/"
   else "") ++
  u.path

/-- Model of `net.SplitHostPort` for non-bracketed hosts: succeeds exactly
when the string contains a single colon, splitting there; a host with no
colon ("missing port") or several colons ("too many colons") is an error
(`none`). -/
def splitHostPort (hostport : String) : Option (String × String) :=
  if hostport.data.count ':' == 1 then
    some (⟨hostport.data.takeWhile (· != ':')⟩,
          ⟨(hostport.data.dropWhile (· != ':')).drop 1⟩)
  else none

/-- The literal characters of the template marker `{{BaseURL}}`. -/
def baseURLMarker : List Char := "\x7b\x7bBaseURL\x7d\x7d".data

/-- Does the regex `{{BaseURL}}:(\d+)` (`urlWithPortRgx` /
`urlWithPortRegex`) match `l`?  True exactly when some occurrence of
`{{BaseURL}}:` is immediately followed by a digit. -/
def portOverrideScan : List Char → Bool
  | [] => false
  | c :: rest =>
    ((baseURLMarker ++ [':']).isPrefixOf (c :: rest) &&
      (match (c :: rest).drop (baseURLMarker.length + 1) with
       | d :: _ => d.isDigit
       | [] => false)) ||
    portOverrideScan rest

/-- Test `len(urlWithPortRgx.FindStringSubmatch(data)) > 0`: the template slot
value requests a port override. -/
def hasPortOverride (data : String) : Bool := portOverrideScan data.data

/-- Scans for a `/` before any newline (the `.` of Go regexes does not
match `\n`). -/
def slashBeforeNewline : List Char → Bool
  | [] => false
  | c :: rest =>
    if c == '/' then true
    else if c == '\n' then false
    else slashBeforeNewline rest

/-- Does the regex `{{BaseURL}}.*/` (`urlWithPathRgx`) match `l`?  True
exactly when some occurrence of `{{BaseURL}}` is followed, with no
intervening newline, by a `/`. -/
def pathOverrideScan : List Char → Bool
  | [] => false
  | c :: rest =>
    (baseURLMarker.isPrefixOf (c :: rest) &&
      slashBeforeNewline ((c :: rest).drop baseURLMarker.length)) ||
    pathOverrideScan rest

/-- Test `len(urlWithPathRgx.FindStringSubmatch(data)) > 0`: the template slot
value specifies a path after `{{BaseURL}}`. -/
def hasPathOverride (data : String) : Bool := pathOverrideScan data.data

/-- Function `baseURLWithTemplatePrefs` from `v2/pkg/requests/bulk-http-request.go`:
on a port override the host is replaced by the hostname returned by
`net.SplitHostPort` — the error being discarded, a host without a port
leaves `hostname` at its zero value `""`; on a path override the path is
cleared; then `parsedURL.String()` is returned. -/
def requestsBaseURLWithTemplatePrefs (data : String) (parsedURL : GoURL) : String :=
  let u1 :=
    if hasPortOverride data then
      { parsedURL with host := ((splitHostPort parsedURL.host).map Prod.fst).getD "" }
    else parsedURL
  let u2 := if hasPathOverride data then { u1 with path := "" } else u1
  urlString u2

/-- Function `baseURLWithTemplatePrefs` from `v2/pkg/protocols/http/build_request.go`:
on a port override the host is replaced by the hostname only when
`net.SplitHostPort` succeeds; the path is never touched. -/
def httpBaseURLWithTemplatePrefs (data : String) (parsedURL : GoURL) : String :=
  let u1 :=
    if hasPortOverride data then
      match splitHostPort parsedURL.host with
      | some (hostname, _) => { parsedURL with host := hostname }
      | none => parsedURL
    else parsedURL
  urlString u1

/-! ### Redirect policy (`v2/pkg/executor/executer_http.go`) -/

/-- The function returned by `makeCheckRedirectFunc`: given the redirect
options and the length of the `requests` chain passed to the check,
`true` means the check returns `http.ErrUseLastResponse` (stop), `false`
means it returns `nil` (follow).  `maxRedirects` is a Go `int`. -/
def checkRedirect (followRedirects : Bool) (maxRedirects : Int) (viaLen : Nat) : Bool :=
  if !followRedirects then true
  else if maxRedirects == 0 then decide (viaLen > 10)
  else decide ((viaLen : Int) > maxRedirects)

/-- Number of redirects actually followed on a chain offering `n` further
redirects, when the next check is invoked with a request history of
length `k`: follow while the check returns `nil`. -/
def redirectsFollowedAux (followRedirects : Bool) (maxRedirects : Int) :
    Nat → Nat → Nat
  | 0, _ => 0
  | n + 1, k =>
    if checkRedirect followRedirects maxRedirects k then 0
    else redirectsFollowedAux followRedirects maxRedirects n (k + 1) + 1

/-- Number of redirects followed on a redirect chain of length `chain`:
the `k`-th redirect is checked with a history of `k` requests (the
initial request plus the `k - 1` redirects already followed). -/
def redirectsFollowed (followRedirects : Bool) (maxRedirects : Int) (chain : Nat) : Nat :=
  redirectsFollowedAux followRedirects maxRedirects chain 1

/-! ### Scan engine resume consult (`executeModelWithInput`, package `core`) -/

/-- Per-template resume information (`generalTypes.ResumeInfo`): indices
are Go `uint32` values, modelled as `Nat`. -/
structure ResumeInfo where
  completed : Bool
  skipUnder : Nat
  doAbove : Nat
  inFlight : List Nat
deriving DecidableEq, Repr

/-- The skip decision computed by the `target.Scan` callback of
`executeModelWithInput` for one index, translated branch by branch from
the source: `resumeFromInfo.Completed` sets skip; otherwise
`index < resumeFromInfo.SkipUnder` sets skip; the two remaining branches
(index in the in-flight set; `index > resumeFromInfo.DoAbove`) leave
skip at `false`. -/
def skipDecision (resumeFrom : ResumeInfo) (index : Nat) : Bool :=
  if resumeFrom.completed then true
  else if index < resumeFrom.skipUnder then true
  else if resumeFrom.inFlight.contains index then false
  else if index > resumeFrom.doAbove then false
  else false

/-- The consult order as the claim states it: completed sets skip; an
index below skip-under *that is not in the in-flight set* sets skip; an
in-flight index is executed again; otherwise the index is executed. -/
def claimSkipDecision (resumeFrom : ResumeInfo) (index : Nat) : Bool :=
  if resumeFrom.completed then true
  else if index < resumeFrom.skipUnder && !(resumeFrom.inFlight.contains index) then true
  else if resumeFrom.inFlight.contains index then false
  else false

/-- The sequential skeleton of `executeModelWithInput` over a target
sequence: for each index a skip decision is taken (and the index is
added to the current info's in-flight set regardless of the decision);
after the scan and the wait, the current resume info is marked
`Completed = true`.  Returned: the per-index skip decisions, the indices
marked in-flight during scheduling, and the final completed flag. -/
def executeModelWithInput (resumeFrom : ResumeInfo) (targets : List α) :
    List Bool × List Nat × Bool :=
  ((List.range targets.length).map (skipDecision resumeFrom),
   List.range targets.length,
   true)

/-! ### Sequential HTTP executor loop (`Request.ExecuteWithResults`) -/

/-- The sequential request loop of `Request.ExecuteWithResults`
(`build_request.go`): the generator yields a sequence of requests; each
executed request produces one wrapped event whose `OperatorsResult` may
be nil (`none`) or non-nil (`some`).  `gotOutput` is set inside the
callback when the result is non-nil; after each request, when
`StopAtFirstMatch && gotOutput`, the loop breaks.  The function returns
the events of the requests actually executed, in order. -/
def executeWithResults (stopAtFirstMatch : Bool) :
    List (Option α) → List (Option α)
  | [] => []
  | e :: rest =>
    e :: (if stopAtFirstMatch && e.isSome then [] else executeWithResults stopAtFirstMatch rest)

/-! ### Bulk HTTP request counters (`bulk-http-request.go`) -/

/-- The fields of `BulkHTTPRequest` read by `GetRequestCount` and `Total`
(the remaining template fields do not influence those functions). -/
structure BulkHTTPRequest where
  path : List String
  raw : List String
deriving DecidableEq, Repr

/-- Function `BulkHTTPRequest.GetRequestCount`: `int64(len(r.Raw) | len(r.Path))`,
a bitwise OR of the two (non-negative) lengths. -/
def getRequestCount (r : BulkHTTPRequest) : Nat :=
  Nat.lor r.raw.length r.path.length

/-- Function `BulkHTTPRequest.Total`: `len(r.Path) + len(r.Raw)`. -/
def totalRequests (r : BulkHTTPRequest) : Nat :=
  r.path.length + r.raw.length

/-! ### Template parsing and cache (`v2/pkg/templates/compile.go`) -/

/-- Template metadata (`model.Info`): the fields validated by `Parse`. -/
structure Info where
  name : String
  authors : List String
deriving DecidableEq, Repr

/-- The decoded template fields `Parse` inspects: the id, the info block,
the per-protocol request-block counts (HTTP blocks carry their `Path`
lists, read by the offline-HTTP branch) and the workflow count. -/
structure Template where
  id : String
  info : Info
  requestsDNS : Nat
  requestsHTTP : List (List String)
  requestsFile : Nat
  requestsNetwork : Nat
  requestsHeadless : Nat
  workflows : Nat
deriving DecidableEq, Repr

/-- Is `c` in `[A-Za-z0-9]`? -/
def isAlnum (c : Char) : Bool := c.isAlpha || c.isDigit

/-- Is `c` one of the separators `[-_]`? -/
def isIdSep (c : Char) : Bool := c == '-' || c == '_'

/-- No two adjacent separator characters. -/
def noAdjacentSeps : List Char → Bool
  | [] => true
  | [_] => true
  | a :: b :: t => !(isIdSep a && isIdSep b) && noAdjacentSeps (b :: t)

/-- Decides membership in the language of the template-id regex
`([A-Za-z0-9]+[-_])*[A-Za-z0-9]+` (anchored): exactly the nonempty
strings over alphanumerics and `-`/`_` that start and end with an
alphanumeric and contain no two adjacent separators. -/
def idRegexMatch (s : String) : Bool :=
  match s.data with
  | [] => false
  | c :: rest =>
    isAlnum c && (c :: rest).all (fun x => isAlnum x || isIdSep x) &&
      isAlnum ((c :: rest).getLastD '-') && noAdjacentSeps (c :: rest)

/-- The `operatorsList` accumulation of the offline-HTTP branch of
`Parse`: requests are taken in order while every path equals-fold
`{{BaseURL}}` or `{{BaseURL}}/`; the first offending path breaks the
outer loop. -/
def offlineOperatorsCount : List (List String) → Nat
  | [] => 0
  | req :: rest =>
    if req.all (fun p => equalFold p "\x7b\x7bBaseURL\x7d\x7d" ||
        equalFold p "\x7b\x7bBaseURL\x7d\x7d/") then
      1 + offlineOperatorsCount rest
    else 0

/-- Does `Parse` end up with a non-nil `template.Executer`?  One executer
branch per protocol, translated from the source guards
(`options.Options.OfflineHTTP`, `options.Options.Headless`). -/
def hasExecuter (offlineHTTP headlessOpt : Bool) (t : Template) : Bool :=
  (t.requestsDNS != 0 && !offlineHTTP) ||
  (if t.requestsHTTP.isEmpty then false
   else if offlineHTTP then offlineOperatorsCount t.requestsHTTP != 0
   else true) ||
  (t.requestsFile != 0 && !offlineHTTP) ||
  (t.requestsNetwork != 0 && !offlineHTTP) ||
  (t.requestsHeadless != 0 && !offlineHTTP && headlessOpt)

/-- The validation-and-compilation pipeline of `Parse` after YAML
decoding, in source order: blank `Info.Name` rejected; empty
`Info.Authors` rejected; no request blocks and no workflow rejected;
then executers are built and compiled (protocol-request compilation is
external to the template fields modelled here and succeeds); finally a
template with neither executer nor compiled workflow is rejected. -/
def validateCompile (offlineHTTP headlessOpt : Bool) (t : Template) :
    Except String Template :=
  if isBlank t.info.name then .error "no template name field provided"
  else if t.info.authors.isEmpty then .error "no template author field provided"
  else if t.requestsDNS + t.requestsHTTP.length + t.requestsFile +
      t.requestsNetwork + t.requestsHeadless + t.workflows == 0 then
    .error ("no requests defined for " ++ t.id)
  else if !(hasExecuter offlineHTTP headlessOpt t) && t.workflows == 0 then
    .error "cannot create template executer"
  else .ok t

/-- Lookup in `parsedTemplatesCache` (a map keyed by the `filePath` string
exactly as passed to `Parse`). -/
def lookupCache (cache : List (String × Template)) (filePath : String) :
    Option Template :=
  (cache.find? (fun kv => kv.1 == filePath)).map Prod.snd

/-- Function `templates.Parse` from `compile.go`: a cache hit returns the cached
template unchanged; otherwise the file is opened, read and decoded
(modelled by `fs`, which maps a path to its decoded template or to a
read/decode error), validated and compiled, and on success stored in the
cache under the exact `filePath` string.  Returns the result and the
updated cache. -/
def parseTemplateFile (offlineHTTP headlessOpt : Bool)
    (fs : String → Except String Template)
    (cache : List (String × Template)) (filePath : String) :
    Except String Template × List (String × Template) :=
  match lookupCache cache filePath with
  | some value => (.ok value, cache)
  | none =>
    match fs filePath with
    | .error e => (.error e, cache)
    | .ok template =>
      match validateCompile offlineHTTP headlessOpt template with
      | .error e => (.error e, cache)
      | .ok t => (.ok t, (filePath, t) :: cache)

/-- A minimal well-formed decoded template (one file-protocol request
block, valid name and authors) used in concrete parse runs. -/
def sampleTemplate : Template :=
  ⟨"sample-id", ⟨"X", ["a"]⟩, 0, [], 1, 0, 0, 0⟩

/-- A decoded template whose id violates the id regex while its name and
authors are valid. -/
def badIdTemplate : Template :=
  ⟨"bad id!", ⟨"X", ["a"]⟩, 0, [], 1, 0, 0, 0⟩

/-- A file system exposing the same template file under two spellings of
the same absolute path (`./a.yaml` and `a.yaml` relative to the working
directory). -/
def aliasedFS : String → Except String Template :=
  fun p =>
    if p == "./a.yaml" || p == "a.yaml" then .ok sampleTemplate
    else .error "open error"

/-- A file system on which every read fails. -/
def failingFS : String → Except String Template := fun _ => .error "io error"

/-! ## Theorems -/

/-- Helper: the OR word loop returns true exactly when some remaining word
occurs in the corpus (the accumulator is irrelevant). -/
theorem matchWordsGo_or (c : String) (acc : List String) (ws : List String) :
    (matchWordsGo .orCond c acc ws).1 = ws.any (fun w => strContains c w) := by
  induction ws generalizing acc with
  | nil => rfl
  | cons w rest ih =>
    simp only [matchWordsGo, expressionsEvaluate, List.any_cons]
    by_cases h : strContains c w
    · simp [h]
    · simp only [h, Bool.not_false, if_pos, Bool.false_or]
      exact ih acc

/-- Helper: the AND word loop on a nonempty word list returns true exactly
when every remaining word occurs in the corpus. -/
theorem matchWordsGo_and (c : String) (ws : List String) (hne : ws ≠ [])
    (acc : List String) :
    (matchWordsGo .andCond c acc ws).1 = ws.all (fun w => strContains c w) := by
  induction ws generalizing acc with
  | nil => exact absurd rfl hne
  | cons w rest ih =>
    simp only [matchWordsGo, expressionsEvaluate, List.all_cons]
    by_cases h : strContains c w
    · simp only [h, Bool.not_true, Bool.false_eq_true, if_neg, Bool.true_and]
      cases rest with
      | nil => simp [matchWordsGo]
      | cons r t =>
        simp only [List.isEmpty_cons, Bool.false_eq_true, if_neg]
        exact ih (by simp) (acc ++ [w])
    · simp [h]

/-- C5 (counterexample): the claim's biconditional fails on an empty word
list — `MatchWords` returns false for a case-insensitive AND matcher
with no words, while "all lowercased words are substrings of the
lowercased corpus" holds vacuously. -/
theorem matchwords_empty_and_vacuously_true :
    matchWordsCompiled true .andCond [] "x" = (false, []) ∧
    (([] : List String).all
      (fun w => strContains (strToLower "x") (strToLower w))) = true := by
  constructor
  · rfl
  · rfl

/-- C5 (amended): for a case-insensitive word matcher with at least one
word, the match decision is the lowercased-substring test — all words
under the AND condition, any word under the OR condition — both sides
lowercased (the corpus by `MatchWords`, the words by the compile step);
a matcher with an empty word list returns false. -/
theorem matchwords_case_insensitive_lowercases_both (cond : ConditionType)
    (words : List String) (corpus : String) (hne : words ≠ []) :
    (matchWordsCompiled true cond words corpus).1 =
      (match cond with
       | .andCond => words.all (fun w => strContains (strToLower corpus) (strToLower w))
       | .orCond => words.any (fun w => strContains (strToLower corpus) (strToLower w))) := by
  have hmap : compileWordsCaseInsensitive true words = words.map strToLower := by
    simp [compileWordsCaseInsensitive]
  cases cond with
  | andCond =>
    have hne2 : words.map strToLower ≠ [] := by
      simpa using hne
    simp only [matchWordsCompiled, matchWords, if_pos, hmap]
    rw [matchWordsGo_and (strToLower corpus) (words.map strToLower) hne2 []]
    simp only [List.all_map]
    rfl
  | orCond =>
    simp only [matchWordsCompiled, matchWords, if_pos, hmap]
    rw [matchWordsGo_or (strToLower corpus) [] (words.map strToLower)]
    simp only [List.any_map]
    rfl

/-- C5 (witness): the amended theorem applied to a concrete matcher — one
word, OR condition, mixed-case word and corpus. -/
theorem matchwords_case_insensitive_witness :
    (matchWordsCompiled true .orCond ["Ab"] "xAB").1 =
      (["Ab"].any (fun w => strContains (strToLower "xAB") (strToLower w))) :=
  matchwords_case_insensitive_lowercases_both .orCond ["Ab"] "xAB" (by decide)

/-- C6 (counterexample): a DSL evaluation error is *skipped*, not treated
as an unmatched expression — an AND matcher whose first expression
errors and whose last evaluates to true returns true, while treating the
error as "not matched" (the claim's reading, `matchDSLErrorsAsUnmatched`)
would return false. -/
theorem matchdsl_error_not_treated_as_unmatched :
    matchDSL .andCond [.evalError, .boolean true] = true ∧
    matchDSLErrorsAsUnmatched .andCond [.evalError, .boolean true] = false := by
  constructor
  · rfl
  · rfl

/-- C6 (amended): an expression whose evaluation fails is skipped entirely
(it neither matches nor fails the AND condition); an expression yielding
a non-boolean is treated as not matched (same branch as a false
boolean); and a DSL matcher all of whose expressions fail to evaluate
returns false — no error is raised, in particular the scan continues. -/
theorem matchdsl_error_skipped_nonbool_unmatched :
    (∀ (cond : ConditionType) (rs : List DslResult),
      matchDSL cond (.evalError :: rs) = matchDSL cond rs) ∧
    (∀ (cond : ConditionType) (rs : List DslResult),
      matchDSL cond (.nonBool :: rs) = matchDSL cond (.boolean false :: rs)) ∧
    (∀ (cond : ConditionType) (n : Nat),
      matchDSL cond (List.replicate n .evalError) = false) := by
  refine ⟨fun cond rs => rfl, fun cond rs => rfl, fun cond n => ?_⟩
  induction n with
  | zero => rfl
  | succ k ih => simpa [List.replicate_succ, matchDSL] using ih

/-- C9: a matcher whose configured value list is empty never matches:
`MatchStatusCode`, `MatchSize`, `MatchWords` and `MatchDSL` each return
false on an empty list of values for every input, under both the AND and
the OR condition. -/
theorem empty_matcher_value_lists_never_match :
    (∀ statusCode : Int, matchStatusCode [] statusCode = false) ∧
    (∀ length : Int, matchSize [] length = false) ∧
    (∀ (ci : Bool) (cond : ConditionType) (corpus : String),
      matchWords ci cond [] corpus = (false, [])) ∧
    (∀ cond : ConditionType, matchDSL cond [] = false) :=
  ⟨fun _ => rfl, fun _ => rfl, fun _ _ _ => rfl, fun _ => rfl⟩

/-- C10: `Total` is `len(Path) + len(Raw)` while `GetRequestCount` is the
bitwise OR `len(Raw) | len(Path)`; the two agree whenever one of the two
lists is empty, and there is a request with both lists nonempty on which
they differ. -/
theorem request_count_vs_total :
    (∀ r : BulkHTTPRequest, r.path = [] ∨ r.raw = [] →
      getRequestCount r = totalRequests r) ∧
    (∃ r : BulkHTTPRequest, r.path ≠ [] ∧ r.raw ≠ [] ∧
      getRequestCount r ≠ totalRequests r) := by
  constructor
  · intro r h
    rcases h with h | h
    · simp only [getRequestCount, totalRequests, h, List.length_nil, Nat.zero_add]
      exact Nat.or_zero _
    · simp only [getRequestCount, totalRequests, h, List.length_nil, Nat.add_zero]
      exact Nat.zero_or _
  · exact ⟨⟨["a"], ["b"]⟩, by decide, by decide, by decide⟩

/-- C10 (witness): the agreement part applied to a request with an empty
path list. -/
theorem request_count_vs_total_witness :
    getRequestCount ⟨[], ["x"]⟩ = totalRequests ⟨[], ["x"]⟩ :=
  request_count_vs_total.1 ⟨[], ["x"]⟩ (Or.inl rfl)

/-- Helper: when the check stops exactly on histories longer than `limit`,
the follow count starting from history length `k` is `min n (limit + 1 - k)`. -/
theorem redirectsFollowedAux_formula (f : Bool) (m : Int) (limit : Nat)
    (hcheck : ∀ j : Nat, checkRedirect f m j = decide (limit < j)) :
    ∀ (n k : Nat), redirectsFollowedAux f m n k = min n (limit + 1 - k) := by
  intro n
  induction n with
  | zero => intro k; simp [redirectsFollowedAux]
  | succ p ih =>
    intro k
    rw [redirectsFollowedAux, hcheck k]
    by_cases hk : limit < k
    · rw [if_pos (by simpa using hk)]
      omega
    · rw [if_neg (by simpa using hk), ih (k + 1)]
      omega

/-- C7: the function built by `makeCheckRedirectFunc` follows redirects
only when follow-redirects is enabled; with `maxRedirects == 0` it
follows at most 10 redirects (the default limit), with a positive
`maxRedirects` it follows at most `maxRedirects` redirects, and with
follow-redirects disabled it follows none. -/
theorem check_redirect_policy (f : Bool) (m : Int) (chain : Nat) :
    (f = false → redirectsFollowed f m chain = 0) ∧
    (f = true → m = 0 → redirectsFollowed f m chain = min chain 10) ∧
    (f = true → 0 < m → redirectsFollowed f m chain = min chain m.toNat) := by
  refine ⟨fun hf => ?_, fun hf hm => ?_, fun hf hm => ?_⟩
  · subst hf
    cases chain with
    | zero => rfl
    | succ p => simp [redirectsFollowed, redirectsFollowedAux, checkRedirect]
  · subst hf; subst hm
    have h := redirectsFollowedAux_formula true 0 10
      (fun j => by simp [checkRedirect]) chain 1
    simpa [redirectsFollowed] using h
  · subst hf
    have hne : (m == 0) = false := by
      simp only [beq_eq_false_iff_ne, ne_eq]
      omega
    have h := redirectsFollowedAux_formula true m m.toNat
      (fun j => by
        simp only [checkRedirect, Bool.not_true, Bool.false_eq_true, if_neg, hne]
        have : ((j : Int) > m) ↔ (m.toNat < j) := by omega
        simp [this]) chain 1
    simpa [redirectsFollowed] using h

/-- C7 (witness): concrete chains — disabled follows none; `maxRedirects=0`
follows 10 of 15 offered redirects; `maxRedirects=3` follows 3 of 15. -/
theorem check_redirect_policy_witness :
    redirectsFollowed false 0 7 = 0 ∧
    redirectsFollowed true 0 15 = 10 ∧
    redirectsFollowed true 3 15 = 3 := by
  refine ⟨(check_redirect_policy false 0 7).1 rfl, ?_, ?_⟩
  · have h := (check_redirect_policy true 0 15).2.1 rfl rfl
    simpa using h
  · have h := (check_redirect_policy true 3 15).2.2 rfl (by omega)
    simpa using h

/-- Helper: the scheduling skip decision depends only on the completed flag
and the skip-under bound — the in-flight and do-above branches of the
source both leave `skip` at false. -/
theorem skipDecision_eq (rf : ResumeInfo) (i : Nat) :
    skipDecision rf i = (rf.completed || decide (i < rf.skipUnder)) := by
  unfold skipDecision
  cases hc : rf.completed
  · by_cases hs : i < rf.skipUnder
    · simp [hs]
    · by_cases hin : rf.inFlight.contains i
      · simp [hs, hin]
      · by_cases hd : i > rf.doAbove <;> simp [hs, hin, hd]
  · simp

/-- C1 (counterexample): the resume consult skips an in-flight index that
lies below skip-under — the claim says an in-flight index is executed
again.  With `skipUnder = 5` and `inFlight = {2}`, index 2 is in flight
yet the code's decision is skip, while the claim's consult order would
execute it; on a three-target scan that index is skipped. -/
theorem resume_consult_skips_inflight_index :
    skipDecision ⟨false, 5, 0, [2]⟩ 2 = true ∧
    (⟨false, 5, 0, [2]⟩ : ResumeInfo).inFlight.contains 2 = true ∧
    claimSkipDecision ⟨false, 5, 0, [2]⟩ 2 = false ∧
    (executeModelWithInput ⟨false, 5, 0, [2]⟩ [(), (), ()]).1 = [true, true, true] := by
  refine ⟨rfl, rfl, rfl, ?_⟩
  rfl

/-- C1 (amended): in `executeModelWithInput` the resume consult skips an
index exactly when the template is marked completed or the index is
below skip-under (the in-flight set is not consulted for the skip
decision itself); every scanned index is marked in-flight in the current
info; after the whole target sequence is processed the template's
current resume info is marked completed.  Whenever every in-flight index
is at or above skip-under — the invariant under which the resume file is
produced — the claim's consult order agrees with the code's. -/
theorem resume_consult_model (rf : ResumeInfo) (targets : List α) :
    (executeModelWithInput rf targets).1 =
      (List.range targets.length).map
        (fun i => rf.completed || decide (i < rf.skipUnder)) ∧
    (executeModelWithInput rf targets).2.1 = List.range targets.length ∧
    (executeModelWithInput rf targets).2.2 = true ∧
    (∀ i : Nat, (∀ j ∈ rf.inFlight, rf.skipUnder ≤ j) →
      claimSkipDecision rf i = skipDecision rf i) := by
  refine ⟨?_, rfl, rfl, ?_⟩
  · unfold executeModelWithInput
    rw [show skipDecision rf = fun i => rf.completed || decide (i < rf.skipUnder)
      from funext (skipDecision_eq rf)]
  · intro i hinv
    rw [skipDecision_eq]
    unfold claimSkipDecision
    cases hc : rf.completed
    · by_cases hin : rf.inFlight.contains i
      · have hge : rf.skipUnder ≤ i := hinv i (by simpa using hin)
        have hs : ¬(i < rf.skipUnder) := by omega
        simp [hin, hs]
      · have hin2 : i ∉ rf.inFlight := by simpa using hin
        by_cases hs : i < rf.skipUnder <;> simp [hin, hin2, hs]
    · simp

/-- C1 (witness): the amended theorem at a concrete resume context and
target list, with the in-flight invariant discharged concretely. -/
theorem resume_consult_model_witness :
    (executeModelWithInput ⟨false, 2, 9, [3]⟩ [10, 20, 30, 40]).2.2 = true ∧
    claimSkipDecision ⟨false, 2, 9, [3]⟩ 3 = skipDecision ⟨false, 2, 9, [3]⟩ 3 :=
  ⟨(resume_consult_model ⟨false, 2, 9, [3]⟩ [10, 20, 30, 40]).2.2.1,
   (resume_consult_model (α := Nat) ⟨false, 2, 9, [3]⟩ [10, 20, 30, 40]).2.2.2 3
     (by decide)⟩

/-- C2: in the sequential `ExecuteWithResults` loop with stop-at-first-match
enabled, the executed requests form a prefix of the generated sequence,
and any executed request whose event carries a non-nil `OperatorsResult`
is the last one executed — no further payload iteration is sent for that
(template, target) pair. -/
theorem stop_at_first_match_truncates (evs : List (Option α)) :
    executeWithResults true evs <+: evs ∧
    (∀ (pre post : List (Option α)) (e : Option α),
      executeWithResults true evs = pre ++ e :: post → e.isSome = true →
      post = []) := by
  induction evs with
  | nil =>
    refine ⟨List.prefix_refl [], fun pre post e h _ => ?_⟩
    cases pre <;> simp [executeWithResults] at h
  | cons x rest ih =>
    cases hx : x.isSome with
    | true =>
      have hrun : executeWithResults true (x :: rest) = [x] := by
        simp [executeWithResults, hx]
      refine ⟨?_, fun pre post e h he => ?_⟩
      · rw [hrun]
        exact ⟨rest, rfl⟩
      · rw [hrun] at h
        cases pre with
        | nil =>
          simp only [List.nil_append] at h
          exact (List.cons_eq_cons.mp h).2.symm
        | cons a pre2 =>
          simp only [List.cons_append] at h
          have h2 := (List.cons_eq_cons.mp h).2
          exact absurd h2.symm (by simp)
    | false =>
      have hrun : executeWithResults true (x :: rest) =
          x :: executeWithResults true rest := by
        simp [executeWithResults, hx]
      refine ⟨?_, fun pre post e h he => ?_⟩
      · rw [hrun]
        exact List.cons_prefix_cons.mpr ⟨rfl, ih.1⟩
      · rw [hrun] at h
        cases pre with
        | nil =>
          simp only [List.nil_append] at h
          have hxe : x = e := (List.cons_eq_cons.mp h).1
          rw [← hxe] at he
          exact absurd he (by simp [hx])
        | cons a pre2 =>
          simp only [List.cons_append] at h
          exact ih.2 pre2 post e (List.cons_eq_cons.mp h).2 he

/-- C2 (witness): on a concrete event sequence whose second request
matches, the executed requests are a prefix and nothing follows the
matching one. -/
theorem stop_at_first_match_truncates_witness :
    executeWithResults true [none, some 0, none] <+: [none, some 0, none] ∧
    ([] : List (Option Nat)) = [] :=
  ⟨(stop_at_first_match_truncates [none, some 0, none]).1,
   (stop_at_first_match_truncates [none, some 0, none]).2 [none] [] (some 0)
     rfl rfl⟩

/-- C4 (counterexample): the protocols/http `baseURLWithTemplatePrefs` does
not drop the target path on a path override — for slot value
`{{BaseURL}}/admin` and target `http://h/p` it renders `http://h/p`,
not the claim's `http://h`. -/
theorem http_baseurl_keeps_target_path :
    httpBaseURLWithTemplatePrefs "\x7b\x7bBaseURL\x7d\x7d/admin" ⟨"http", "h", "/p"⟩ =
      "http://h/p" ∧
    hasPathOverride "\x7b\x7bBaseURL\x7d\x7d/admin" = true ∧
    ("http://h/p" : String) ≠ "http://h" := by
  refine ⟨rfl, by decide, by decide⟩

/-- C4 (amended): the requests-package `baseURLWithTemplatePrefs` honors
both overrides — on a port override the host is replaced by what
`SplitHostPort` returns (its own port stripped when it has one; the
discarded error leaves the host empty when it has none), and on a path
override the target path is dropped, so a portless host under both
overrides renders the degenerate `scheme:`; the protocols/http variant
honors only the port override — stripping the port when the host has
one and leaving the URL untouched when `SplitHostPort` fails — and
always keeps the target path. -/
theorem baseurl_template_prefs (data : String) (u : GoURL) :
    (∀ hn pr : String, hasPortOverride data = true →
      splitHostPort u.host = some (hn, pr) →
      requestsBaseURLWithTemplatePrefs data u =
        urlString ⟨u.scheme, hn, if hasPathOverride data then "" else u.path⟩ ∧
      httpBaseURLWithTemplatePrefs data u = urlString ⟨u.scheme, hn, u.path⟩) ∧
    (hasPortOverride data = false →
      requestsBaseURLWithTemplatePrefs data u =
        urlString ⟨u.scheme, u.host, if hasPathOverride data then "" else u.path⟩ ∧
      httpBaseURLWithTemplatePrefs data u = urlString u) ∧
    (hasPortOverride data = true → splitHostPort u.host = none →
      requestsBaseURLWithTemplatePrefs data u =
        urlString ⟨u.scheme, "", if hasPathOverride data then "" else u.path⟩ ∧
      httpBaseURLWithTemplatePrefs data u = urlString u) := by
  refine ⟨fun hn pr hport hsplit => ⟨?_, ?_⟩, fun hport => ⟨?_, ?_⟩,
    fun hport hsplit => ⟨?_, ?_⟩⟩
  · simp only [requestsBaseURLWithTemplatePrefs, hport, if_pos, hsplit,
      Option.map_some, Option.getD_some]
    by_cases hpath : hasPathOverride data <;> simp [hpath]
  · simp only [httpBaseURLWithTemplatePrefs, hport, if_pos, hsplit]
  · simp only [requestsBaseURLWithTemplatePrefs, hport, Bool.false_eq_true,
      if_neg]
    by_cases hpath : hasPathOverride data <;> simp [hpath]
  · simp [httpBaseURLWithTemplatePrefs, hport]
  · simp only [requestsBaseURLWithTemplatePrefs, hport, if_pos, hsplit,
      Option.map_none, Option.getD_none]
    by_cases hpath : hasPathOverride data <;> simp [hpath]
  · simp only [httpBaseURLWithTemplatePrefs, hport, if_pos, hsplit]

/-- C4 (witness): a slot value with both a port and a path override, on a
target whose host has a port (the requests variant strips port and
path, the protocols/http variant only the port) and on one whose host
has none (`SplitHostPort` fails: the requests variant renders the
degenerate `http:`, the protocols/http variant leaves the target URL
untouched). -/
theorem baseurl_template_prefs_witness :
    requestsBaseURLWithTemplatePrefs "\x7b\x7bBaseURL\x7d\x7d:8080/x"
      ⟨"http", "h:80", "/p"⟩ = "http://h" ∧
    httpBaseURLWithTemplatePrefs "\x7b\x7bBaseURL\x7d\x7d:8080/x"
      ⟨"http", "h:80", "/p"⟩ = "http://h/p" ∧
    requestsBaseURLWithTemplatePrefs "\x7b\x7bBaseURL\x7d\x7d:8080/x"
      ⟨"http", "h", "/p"⟩ = "http:" ∧
    httpBaseURLWithTemplatePrefs "\x7b\x7bBaseURL\x7d\x7d:8080/x"
      ⟨"http", "h", "/p"⟩ = "http://h/p" := by
  have h1 := (baseurl_template_prefs "\x7b\x7bBaseURL\x7d\x7d:8080/x"
    ⟨"http", "h:80", "/p"⟩).1 "h" "80" (by decide) (by decide)
  have h3 := (baseurl_template_prefs "\x7b\x7bBaseURL\x7d\x7d:8080/x"
    ⟨"http", "h", "/p"⟩).2.2 (by decide) (by decide)
  refine ⟨?_, ?_, ?_, ?_⟩
  · rw [h1.1]
    decide
  · rw [h1.2]
    decide
  · rw [h3.1]
    decide
  · rw [h3.2]
    decide

/-- Helper: a successful `validateCompile` returns the decoded template
unchanged and implies the name is non-blank and the authors nonempty. -/
theorem validateCompile_ok (off h : Bool) (t t2 : Template)
    (hv : validateCompile off h t = .ok t2) :
    t2 = t ∧ isBlank t.info.name = false ∧ t.info.authors ≠ [] := by
  unfold validateCompile at hv
  by_cases h1 : isBlank t.info.name
  · simp [h1] at hv
  · by_cases h2 : t.info.authors.isEmpty
    · simp [h1, h2] at hv
    · have hne : t.info.authors ≠ [] := by
        intro hnil
        exact h2 (by simp [hnil])
      simp only [h1, h2, Bool.false_eq_true, if_neg] at hv
      split_ifs at hv
      all_goals
        exact ⟨(Except.ok.inj hv).symm, by simpa using h1, hne⟩

/-- C3 (counterexample): `Parse` accepts a template whose id violates the
id regex — the decoded template `badIdTemplate` (id `"bad id!"`, valid
name and authors) parses successfully, yet its id does not match
`([A-Za-z0-9]+[-_])*[A-Za-z0-9]+`. -/
theorem parse_accepts_id_violating_regex :
    (parseTemplateFile false false
      (fun p => if p == "t.yaml" then .ok badIdTemplate else .error "open")
      [] "t.yaml").1 = .ok badIdTemplate ∧
    idRegexMatch badIdTemplate.id = false := by
  exact ⟨rfl, by decide⟩

/-- C3 (amended): a successful `Parse` guarantees a non-blank `info.name`
and a nonempty `info.authors` — a template violating either is rejected
with a validation error — but the id regex is not checked by `Parse`
(the pattern exists only as a schema annotation). -/
theorem parse_validates_name_authors_not_id :
    (∀ (off h : Bool) (fs : String → Except String Template) (p : String)
        (t : Template),
      (parseTemplateFile off h fs [] p).1 = .ok t →
      isBlank t.info.name = false ∧ t.info.authors ≠ []) ∧
    (∀ (off h : Bool) (t : Template), isBlank t.info.name = true →
      validateCompile off h t = .error "no template name field provided") ∧
    (∀ (off h : Bool) (t : Template), isBlank t.info.name = false →
      t.info.authors = [] →
      validateCompile off h t = .error "no template author field provided") := by
  refine ⟨fun off h fs p t hp => ?_, fun off h t h1 => ?_, fun off h t h1 h2 => ?_⟩
  · unfold parseTemplateFile at hp
    split at hp
    · rename_i v heq
      exact absurd heq (by simp [lookupCache])
    · split at hp
      · exact absurd hp (by simp)
      · rename_i tpl heq2
        split at hp
        · exact absurd hp (by simp)
        · rename_i t0 hv
          have ht : t0 = t := by simpa using hp
          obtain ⟨heq, hname, hauth⟩ := validateCompile_ok off h tpl t0 hv
          rw [← ht, heq]
          exact ⟨hname, hauth⟩
  · simp [validateCompile, h1]
  · simp [validateCompile, h1, h2]

/-- C3 (witness): the amended theorem applied to a concrete successful
parse of `sampleTemplate`. -/
theorem parse_validates_name_authors_witness :
    isBlank "X" = false ∧ (["a"] : List String) ≠ [] :=
  parse_validates_name_authors_not_id.1 false false
    (fun _ => .ok sampleTemplate) "t.yaml" sampleTemplate rfl

/-- C8 (counterexample): the parse cache is keyed by the exact path string,
not by absolute path — `./a.yaml` and `a.yaml` name the same file on
`aliasedFS`, yet after a successful parse of `./a.yaml` a parse of
`a.yaml` misses the cache and goes back to the file system (here it
fails on `failingFS` instead of returning the cached template). -/
theorem parse_cache_not_keyed_by_absolute_path :
    aliasedFS "./a.yaml" = .ok sampleTemplate ∧
    aliasedFS "a.yaml" = .ok sampleTemplate ∧
    (parseTemplateFile false false aliasedFS [] "./a.yaml").1 =
      .ok sampleTemplate ∧
    (parseTemplateFile false false failingFS
        ((parseTemplateFile false false aliasedFS [] "./a.yaml").2)
        "a.yaml").1 = .error "io error" := by
  exact ⟨rfl, rfl, rfl, rfl⟩

/-- C8 (amended): parsing is idempotent for the exact path string — once
`Parse` has succeeded for a path, every subsequent call with that same
string returns the cached template and leaves the cache unchanged,
without consulting the file system (the result is the same for *any*
file-system state). -/
theorem parse_cached_idempotent (off h : Bool)
    (fs : String → Except String Template)
    (cache : List (String × Template)) (p : String) (t : Template)
    (cache2 : List (String × Template))
    (hp : parseTemplateFile off h fs cache p = (.ok t, cache2)) :
    ∀ fs2 : String → Except String Template,
      parseTemplateFile off h fs2 cache2 p = (.ok t, cache2) := by
  intro fs2
  unfold parseTemplateFile at hp
  split at hp
  · rename_i v hl
    simp only [Prod.mk.injEq, Except.ok.injEq] at hp
    obtain ⟨hv, hc⟩ := hp
    subst hv
    subst hc
    unfold parseTemplateFile
    rw [hl]
  · rename_i hl
    split at hp
    · exact absurd hp (by simp)
    · rename_i tpl heq2
      split at hp
      · exact absurd hp (by simp)
      · rename_i t0 hvc
        simp only [Prod.mk.injEq, Except.ok.injEq] at hp
        obtain ⟨ht, hc⟩ := hp
        subst ht
        subst hc
        have hl2 : lookupCache ((p, t0) :: cache) p = some t0 := by
          simp [lookupCache, List.find?]
        unfold parseTemplateFile
        rw [hl2]

/-- C8 (witness): after a concrete successful parse that cached
`sampleTemplate` under `p.yaml`, a second call with a failing file
system still returns the cached template. -/
theorem parse_cached_idempotent_witness :
    parseTemplateFile false false failingFS
      [("p.yaml", sampleTemplate)] "p.yaml" =
      (.ok sampleTemplate, [("p.yaml", sampleTemplate)]) :=
  parse_cached_idempotent false false (fun _ => .ok sampleTemplate) []
    "p.yaml" sampleTemplate [("p.yaml", sampleTemplate)] rfl failingFS
